import Mathlib

/-!
Shallow embedding of the FLTK Emscripten backend
(`src/drivers/Emscripten/Fl_Emscripten_Graphics_Driver.cxx` and
`src/drivers/Emscripten/Fl_Emscripten_Window_Driver.cxx`).

C `int` values are modelled as `Int`; C `double` values as `ℚ` (the
arithmetic performed by the code on them is exact on the inputs the
claims quantify over); bitmask state (`Fl::e_state`) as `Nat`.
Calls into the HTML canvas (`EM_ASM` blocks) are modelled as emitted
`Cmd` values; calls into toolkit code that is outside this repository
are modelled as opaque commands at the call boundary.
-/

namespace FltkEm

/-- The clip-stack node `EmClip` of the graphics driver
(fields `x, y, w, h`; the `prev` pointer is modelled by the tail of a
`List EmClip`, whose head is the global `emclip_`). -/
structure EmClip where
  x : Int
  y : Int
  w : Int
  h : Int
deriving DecidableEq, Repr

/-- Result of `clip_box`: the C function's return value `ret` and the
four out-parameters `X Y W H`. -/
structure ClipBox where
  ret : Int
  X : Int
  Y : Int
  W : Int
  H : Int
deriving DecidableEq, Repr

/-- `Fl_Emscripten_Graphics_Driver::clip_box(x, y, w, h, X, Y, W, H)`.
The out-parameters `X`, `Y`, `W` are assigned on every path of the C
function; `H` is left unassigned on the early return taken when the
computed `W` is negative, so the caller's incoming value of `H` is kept
there — it is passed in as `H0` (every call site in the repository
passes a zero-initialized `H`). -/
def clip_box (stack : List EmClip) (x y w h H0 : Int) : ClipBox :=
  match stack with
  | [] => ⟨0, x, y, w, h⟩
  | c :: _ =>
    if c.w < 0 then ⟨1, x, y, w, h⟩
    else
      let X : Int := if x > c.x then x else c.x
      let ret1 : Int := if x > c.x then 1 else 0
      let Y : Int := if y > c.y then y else c.y
      let ret2 : Int := if y > c.y then 1 else ret1
      let W : Int := if x + w < c.x + c.w then x + w - X else c.x + c.w - X
      let ret3 : Int := if x + w < c.x + c.w then 1 else ret2
      if W < 0 then ⟨1, X, Y, 0, H0⟩
      else
        let H : Int := if y + h < c.y + c.h then y + h - Y else c.y + c.h - Y
        let ret4 : Int := if y + h < c.y + c.h then 1 else ret3
        if H < 0 then ⟨1, X, Y, 0, 0⟩
        else ⟨ret4, X, Y, W, H⟩

/-- `Fl_Emscripten_Graphics_Driver::push_clip(x, y, w, h)`: allocates a
value-initialized `EmClip` (all fields zero), fills it through
`clip_box` and pushes it onto the stack. -/
def push_clip (stack : List EmClip) (x y w h : Int) : List EmClip :=
  let r := clip_box stack x y w h 0
  ⟨r.X, r.Y, r.W, r.H⟩ :: stack

/-- `Fl_Emscripten_Graphics_Driver::push_no_clip()`: pushes an entry
with all fields `-1` (its negative `w` marks a no-clip entry). -/
def push_no_clip (stack : List EmClip) : List EmClip :=
  (⟨-1, -1, -1, -1⟩ : EmClip) :: stack

/-- `Fl_Emscripten_Graphics_Driver::pop_clip()`: pops the top entry,
doing nothing on an empty stack. -/
def pop_clip (stack : List EmClip) : List EmClip :=
  match stack with
  | [] => []
  | _ :: rest => rest

/-- `Fl_Emscripten_Graphics_Driver::not_clipped(x, y, w, h)`: 1 with no
clip or a no-clip top entry; otherwise 1 exactly when `clip_box`
(called on zero-initialized out-variables) produces a nonzero `W`. -/
def not_clipped (stack : List EmClip) (x y w h : Int) : Int :=
  match stack with
  | [] => 1
  | c :: _ =>
    if c.w < 0 then 1
    else if (clip_box stack x y w h 0).W ≠ 0 then 1 else 0

/-- The 2x3 transform matrix `Fl_Graphics_Driver::matrix`
(fields `a, b, c, d, x, y`, all C doubles). -/
structure GMatrix where
  a : ℚ
  b : ℚ
  c : ℚ
  d : ℚ
  x : ℚ
  y : ℚ
deriving DecidableEq, Repr

/-- The C conversion `(int)q` of a double: truncation toward zero. -/
def cTrunc (q : ℚ) : Int := Int.tdiv q.num (q.den : Int)

/-- `invert_matrix(m, newmatrix)`: the C function stores its truncated
integer determinant in `int det`, returns -1 (here `none`) when that
integer is zero, and otherwise builds the output matrix with
`double invDet = 1 / det` — both operands are `int`, so this is C
integer division, truncating toward zero: it yields 1 for det = 1, -1
for det = -1 and 0 whenever |det| >= 2. -/
def invert_matrix (m : GMatrix) : Option GMatrix :=
  let det : Int := cTrunc (m.a * m.d - m.b * m.c)
  if det = 0 then none
  else
    let invDet : ℚ := ((Int.tdiv 1 det : Int) : ℚ)
    some ⟨m.d * invDet, -m.b * invDet, -m.c * invDet, m.a * invDet,
          (m.c * m.y - m.d * m.x) * invDet, (m.b * m.x - m.a * m.y) * invDet⟩

/-- Applying a 2x3 transform to a point, as the toolkit does
(`fl_transform_x/y`): `(X, Y) ↦ (a X + c Y + x, b X + d Y + y)`. -/
def apply_matrix (m : GMatrix) (px py : ℚ) : ℚ × ℚ :=
  (m.a * px + m.c * py + m.x, m.b * px + m.d * py + m.y)

/-- The driver's path mode enum (`what`). -/
inductive ShapeMode
  | NONE
  | POINTS
  | LINE
  | LOOP
  | POLYGON
deriving DecidableEq, Repr

/-- A call issued to the HTML canvas 2d context from an `EM_ASM` block.
`baseClassCurve` stands for the delegation to
`Fl_Graphics_Driver::curve`, toolkit code outside this repository. -/
inductive Cmd
  | save
  | restore
  | beginPath
  | closePath
  | stroke
  | fill
  | resetTransform
  | transform (a b c d x y : ℚ)
  | moveTo (x y : ℚ)
  | lineTo (x y : ℚ)
  | bezierCurveTo (x1 y1 x2 y2 x3 y3 : ℚ)
  | arcPath (x y r start stop : ℚ) (ccw : Bool)
  | baseClassCurve (x y x1 y1 x2 y2 x3 y3 : ℚ)
deriving DecidableEq, Repr

/-- The graphics driver state touched by the path functions: the path
mode `what`, the gap flag `gap_` and the current transform `m`. -/
structure DriverState where
  what : ShapeMode
  gap_ : Int
  m : GMatrix
deriving DecidableEq, Repr

/-- `Fl_Emscripten_Graphics_Driver::concat()`: applies the current
matrix to the canvas. -/
def concat (s : DriverState) : List Cmd :=
  [Cmd.transform s.m.a s.m.b s.m.c s.m.d s.m.x s.m.y]

/-- `Fl_Emscripten_Graphics_Driver::reconcat()`: resets the canvas
transform. -/
def reconcat : List Cmd := [Cmd.resetTransform]

/-- `begin_points()`: save, concat, beginPath; then `gap_ = 1` and
`what = POINTS`. -/
def begin_points (s : DriverState) : DriverState × List Cmd :=
  ({ s with gap_ := 1, what := ShapeMode.POINTS },
   Cmd.save :: concat s ++ [Cmd.beginPath])

/-- `begin_line()`. -/
def begin_line (s : DriverState) : DriverState × List Cmd :=
  ({ s with gap_ := 1, what := ShapeMode.LINE },
   Cmd.save :: concat s ++ [Cmd.beginPath])

/-- `begin_loop()`. -/
def begin_loop (s : DriverState) : DriverState × List Cmd :=
  ({ s with gap_ := 1, what := ShapeMode.LOOP },
   Cmd.save :: concat s ++ [Cmd.beginPath])

/-- `begin_polygon()`. -/
def begin_polygon (s : DriverState) : DriverState × List Cmd :=
  ({ s with gap_ := 1, what := ShapeMode.POLYGON },
   Cmd.save :: concat s ++ [Cmd.beginPath])

/-- `end_line()`: `gap_ = 1`, reconcat, stroke, restore,
`what = NONE`. -/
def end_line (s : DriverState) : DriverState × List Cmd :=
  ({ s with gap_ := 1, what := ShapeMode.NONE },
   reconcat ++ [Cmd.stroke, Cmd.restore])

/-- `end_points()` simply calls `end_line()`. -/
def end_points (s : DriverState) : DriverState × List Cmd := end_line s

/-- `end_loop()`: closes the path before stroking. -/
def end_loop (s : DriverState) : DriverState × List Cmd :=
  ({ s with gap_ := 1, what := ShapeMode.NONE },
   reconcat ++ [Cmd.closePath, Cmd.stroke, Cmd.restore])

/-- `end_polygon()`: closes and fills the path. -/
def end_polygon (s : DriverState) : DriverState × List Cmd :=
  ({ s with gap_ := 1, what := ShapeMode.NONE },
   reconcat ++ [Cmd.closePath, Cmd.fill, Cmd.restore])

/-- `arc(double x, double y, double r, double start, double end)`:
returns immediately when `what == NONE`; otherwise begins a path when
the gap flag is set, clears the gap flag and emits the canvas arc (the
JS side negates and converts the angles; `start > end` selects the
clockwise form). -/
def arc (s : DriverState) (x y r start stop : ℚ) : DriverState × List Cmd :=
  if s.what = ShapeMode.NONE then (s, [])
  else
    let gapCmds := if s.gap_ = 1 then [Cmd.beginPath] else []
    ({ s with gap_ := 0 },
     gapCmds ++ [if start > stop then Cmd.arcPath x y r start stop false
                 else Cmd.arcPath x y r start stop true])

/-- `curve(...)`: returns immediately when `what == NONE`; in POINTS
mode it delegates to the toolkit base class (external code, modelled as
an opaque command); otherwise it moves or draws to the first point
depending on the gap flag, emits the bezier and clears the gap flag. -/
def curve (s : DriverState) (x y x1 y1 x2 y2 x3 y3 : ℚ) :
    DriverState × List Cmd :=
  if s.what = ShapeMode.NONE then (s, [])
  else if s.what = ShapeMode.POINTS then
    (s, [Cmd.baseClassCurve x y x1 y1 x2 y2 x3 y3])
  else
    ({ s with gap_ := 0 },
     [(if s.gap_ ≠ 0 then Cmd.moveTo x y else Cmd.lineTo x y),
      Cmd.bezierCurveTo x1 y1 x2 y2 x3 y3])

/-! Constants from the toolkit's public `FL/Enumerations.H` and from
Emscripten's `emscripten/html5.h`, part of the external contracts this
backend implements. -/

def FL_PUSH : Int := 1
def FL_RELEASE : Int := 2
def FL_ENTER : Int := 3
def FL_LEAVE : Int := 4
def FL_MOVE : Int := 11

def FL_SHIFT : Nat := 0x00010000
def FL_CTRL : Nat := 0x00040000
def FL_ALT : Nat := 0x00080000
def FL_META : Nat := 0x00400000
def FL_BUTTON1 : Nat := 0x01000000
def FL_BUTTON2 : Nat := 0x02000000
def FL_BUTTON3 : Nat := 0x04000000

def FL_Button : Int := 0xfee8
def FL_BackSpace : Int := 0xff08
def FL_Tab : Int := 0xff09
def FL_Iso_Key : Int := 0xff0c
def FL_Enter : Int := 0xff0d
def FL_Pause : Int := 0xff13
def FL_Scroll_Lock : Int := 0xff14
def FL_Escape : Int := 0xff1b
def FL_Kana : Int := 0xff2e
def FL_Eisu : Int := 0xff2f
def FL_Yen : Int := 0xff30
def FL_JIS_Underscore : Int := 0xff31
def FL_Home : Int := 0xff50
def FL_Left : Int := 0xff51
def FL_Up : Int := 0xff52
def FL_Right : Int := 0xff53
def FL_Down : Int := 0xff54
def FL_Page_Up : Int := 0xff55
def FL_Page_Down : Int := 0xff56
def FL_End : Int := 0xff57
def FL_Print : Int := 0xff61
def FL_Insert : Int := 0xff63
def FL_Menu : Int := 0xff67
def FL_Help : Int := 0xff68
def FL_Num_Lock : Int := 0xff7f
def FL_KP : Int := 0xff80
def FL_KP_Enter : Int := 0xff8d
def FL_KP_Last : Int := 0xffbd
def FL_F : Int := 0xffbd
def FL_F_Last : Int := 0xffe0
def FL_Shift_L : Int := 0xffe1
def FL_Shift_R : Int := 0xffe2
def FL_Control_L : Int := 0xffe3
def FL_Control_R : Int := 0xffe4
def FL_Caps_Lock : Int := 0xffe5
def FL_Meta_L : Int := 0xffe7
def FL_Meta_R : Int := 0xffe8
def FL_Alt_L : Int := 0xffe9
def FL_Alt_R : Int := 0xffea
def FL_Delete : Int := 0xffff
def FL_Alt_Gr : Int := 0xfe03

def EMSCRIPTEN_EVENT_CLICK : Int := 4
def EMSCRIPTEN_EVENT_MOUSEDOWN : Int := 5
def EMSCRIPTEN_EVENT_MOUSEUP : Int := 6
def EMSCRIPTEN_EVENT_DBLCLICK : Int := 7
def EMSCRIPTEN_EVENT_MOUSEMOVE : Int := 8
def EMSCRIPTEN_EVENT_MOUSEENTER : Int := 33
def EMSCRIPTEN_EVENT_MOUSELEAVE : Int := 34

/-- The `special_keys` table of the window driver (browser key-string
names). -/
def special_keys : List String :=
  ["Backspace", "Tab", "IsoKey", "Enter", "Pause",
   "ScrollLock", "Escape", "Kana", "Eisu", "Yen",
   "JISUnderscore", "Home", "ArrowLeft", "ArrowUp", "ArrowRight",
   "ArrowDown", "PageUp", "PageDown", "End", "Print",
   "Insert", "Menu", "Help", "NumLock", "KP",
   "KPEnter", "KPLast", "F", "FLast", "Shift",
   "Shift", "Control", "Control", "CapsLock", "Meta",
   "Meta", "Alt", "Alt", "Delete", "AltGr"]

/-- The `special_keys_equiv` table: the FLTK keysym stored at the same
index as the matching `special_keys` entry. -/
def special_keys_equiv : List Int :=
  [FL_BackSpace, FL_Tab, FL_Iso_Key, FL_Enter, FL_Pause,
   FL_Scroll_Lock, FL_Escape, FL_Kana, FL_Eisu, FL_Yen,
   FL_JIS_Underscore, FL_Home, FL_Left, FL_Up, FL_Right,
   FL_Down, FL_Page_Up, FL_Page_Down, FL_End, FL_Print,
   FL_Insert, FL_Menu, FL_Help, FL_Num_Lock, FL_KP,
   FL_KP_Enter, FL_KP_Last, FL_F, FL_F_Last, FL_Shift_L,
   FL_Shift_R, FL_Control_L, FL_Control_R, FL_Caps_Lock, FL_Meta_L,
   FL_Meta_R, FL_Alt_L, FL_Alt_R, FL_Delete, FL_Alt_Gr]

/-- The C loop inside `special_key`: scan the table from index `i`,
returning the index of the first `strcmp` match, else -1. -/
def special_key_loop (k : String) : List String → Nat → Int
  | [], _ => -1
  | s :: rest, i => if s = k then (i : Int) else special_key_loop k rest (i + 1)

/-- `special_key(k)`: index of the first entry of `special_keys` equal
to `k`, or -1. -/
def special_key (k : String) : Int := special_key_loop k special_keys 0

/-- The first UTF-8 byte of a character (the value `key[0]` reads when
`key` starts with this character). -/
def utf8FirstByte (c : Char) : Nat :=
  let n := c.toNat
  if n < 0x80 then n
  else if n < 0x800 then 0xC0 ||| (n >>> 6)
  else if n < 0x10000 then 0xE0 ||| (n >>> 12)
  else 0xF0 ||| (n >>> 18)

/-- The C expression `keyEvent->key[0]` assigned to the `int`
`Fl::e_keysym`: the first byte of the UTF-8 encoding read through a
signed `char`, hence sign-extended for bytes at or above 0x80; 0 for
the empty string. -/
def strFirstByte (s : String) : Int :=
  match s.data with
  | [] => 0
  | c :: _ =>
    let b := utf8FirstByte c
    if b < 0x80 then (b : Int) else (b : Int) - 256

/-- The fields of `EmscriptenKeyboardEvent` the handler reads. -/
structure KeyEvent where
  key : String
  ctrlKey : Bool
  altKey : Bool
  shiftKey : Bool
  metaKey : Bool
deriving DecidableEq, Repr

/-- The toolkit globals written by `set_keysym_and_state`. -/
structure KeyOut where
  e_keysym : Int
  e_length : Nat
  e_text : String
  e_state : Nat
deriving DecidableEq, Repr

/-- `set_keysym_and_state(keyEvent)`: keeps only bits 16-23 of the old
`Fl::e_state`, fills keysym/text/length from the special-key table or
from the raw key string, and ORs in the modifier bits reported by the
event. -/
def set_keysym_and_state (old_state : Nat) (ev : KeyEvent) : KeyOut :=
  let state0 := old_state &&& 0xff0000
  let sk := special_key ev.key
  let ksym : Int :=
    if sk ≥ 0 then special_keys_equiv.getD sk.toNat 0 else strFirstByte ev.key
  let len : Nat := if sk ≥ 0 then 0 else ev.key.utf8ByteSize
  let txt : String := if sk ≥ 0 then "" else ev.key
  let state1 := if ev.ctrlKey then state0 ||| FL_CTRL else state0
  let state2 := if ev.altKey then state1 ||| FL_ALT else state1
  let state3 := if ev.shiftKey then state2 ||| FL_SHIFT else state2
  let state4 := if ev.metaKey then state3 ||| FL_META else state3
  ⟨ksym, len, txt, state4⟩

/-- The fields of `EmscriptenMouseEvent` the handler reads. -/
structure MouseEvent where
  eventType : Int
  button : Nat
  targetX : Int
  targetY : Int
  clientX : Int
  clientY : Int
deriving DecidableEq, Repr

/-- The toolkit globals and static locals (`px`, `py`) that
`handle_mouse_ev` reads and writes. -/
structure MouseGlobals where
  e_x : Int
  e_y : Int
  e_x_root : Int
  e_y_root : Int
  e_state : Nat
  e_clicks : Int
  e_is_click : Int
  e_keysym : Int
  px : Int
  py : Int
deriving DecidableEq, Repr

/-- `match_mouse_event(eventType)`: the browser-event to FLTK-event
table. -/
def match_mouse_event (eventType : Int) : Int :=
  if eventType = EMSCRIPTEN_EVENT_MOUSEDOWN then FL_PUSH
  else if eventType = EMSCRIPTEN_EVENT_MOUSEUP then FL_RELEASE
  else if eventType = EMSCRIPTEN_EVENT_MOUSEMOVE then FL_MOVE
  else if eventType = EMSCRIPTEN_EVENT_MOUSEENTER then FL_ENTER
  else if eventType = EMSCRIPTEN_EVENT_MOUSELEAVE then FL_LEAVE
  else if eventType = EMSCRIPTEN_EVENT_DBLCLICK then FL_PUSH
  else if eventType = EMSCRIPTEN_EVENT_CLICK then FL_PUSH
  else 0

/-- `handle_mouse_ev(eventType, event, data)`: updates the mouse
globals and returns the FLTK event code passed on to `Fl::handle`.
`ulong` is 32 bits wide on the wasm32 target, so the C `~FL_BUTTONn`
masks are complemented within 32 bits. -/
def handle_mouse_ev (g : MouseGlobals) (ev : MouseEvent) :
    MouseGlobals × Int :=
  let state := g.e_state &&& 0xff0000
  let g := { g with e_x := ev.targetX, e_y := ev.targetY,
                    e_x_root := ev.clientX, e_y_root := ev.clientY }
  let flev := match_mouse_event ev.eventType
  if flev = FL_PUSH then
    let e_clicks : Int :=
      if ev.eventType = EMSCRIPTEN_EVENT_DBLCLICK then 1 else 0
    let state := if ev.button = 0 then state ||| FL_BUTTON1 else state
    let state := if ev.button = 1 then state ||| FL_BUTTON2 else state
    let state := if ev.button = 2 then state ||| FL_BUTTON3 else state
    ({ g with e_clicks := e_clicks, e_is_click := 1,
              px := g.e_x_root, py := g.e_y_root,
              e_state := state,
              e_keysym := FL_Button + (ev.button : Int) + 1 }, flev)
  else if flev = FL_RELEASE then
    let e_is_click : Int :=
      if 5 < (g.e_x_root - g.px).natAbs ∨ 5 < (g.e_y_root - g.py).natAbs then 0
      else g.e_is_click
    let state := if ev.button = 0 then state &&& (0xffffffff ^^^ FL_BUTTON1)
                 else state
    let state := if ev.button = 1 then state &&& (0xffffffff ^^^ FL_BUTTON2)
                 else state
    let state := if ev.button = 2 then state &&& (0xffffffff ^^^ FL_BUTTON3)
                 else state
    ({ g with e_is_click := e_is_click, e_state := state,
              e_keysym := FL_Button + (ev.button : Int) + 1 }, flev)
  else
    ({ g with e_state := state }, flev)

def FL_CAP_FLAT : Nat := 0x100
def FL_CAP_ROUND : Nat := 0x200
def FL_CAP_SQUARE : Nat := 0x300
def FL_JOIN_MITER : Nat := 0x1000
def FL_JOIN_ROUND : Nat := 0x2000
def FL_JOIN_BEVEL : Nat := 0x3000

/-- The `dashes_flat` table: rows of C ints, -1 terminating each
pattern. -/
def dashes_flat : List (List Int) :=
  [[-1, 0, 0, 0, 0, 0, 0],
   [3, 1, -1, 0, 0, 0, 0],
   [1, 1, -1, 0, 0, 0, 0],
   [3, 1, 1, 1, -1, 0, 0],
   [3, 1, 1, 1, 1, 1, -1]]

/-- The `dashes_cap` table: rows of C doubles (decimal literals taken
at their exact rational value), -1 terminating each pattern. -/
def dashes_cap : List (List ℚ) :=
  [[-1, 0, 0, 0, 0, 0, 0],
   [2, 2, -1, 0, 0, 0, 0],
   [1/100, 199/100, -1, 0, 0, 0, 0],
   [2, 2, 1/100, 199/100, -1, 0, 0],
   [2, 2, 1/100, 199/100, 1/100, 199/100, -1]]

/-- The driver fields written by `line_style` together with the dash
array handed to `ctx.setLineDash` (the `ddashes` buffer of length `l`;
the canvas also receives `width_`, `linecap_` and `linejoin_`
unchanged). -/
structure LineStyleResult where
  width_ : Int
  linecap_ : String
  linejoin_ : String
  linedash_ : List Int
  applied_dashes : List ℚ
deriving DecidableEq, Repr

/-- `Fl_Emscripten_Graphics_Driver::line_style(style, width, dashes)`.
`dashes` is a NUL-terminated C string of signed char dash lengths,
modelled as `Option (List Int)` (`none` for a null pointer, entries
nonzero). -/
def line_style (style : Nat) (width : Int) (dashes : Option (List Int)) :
    LineStyleResult :=
  let linedash_ : List Int := match dashes with | some ds => ds | none => []
  let width := if width = 0 then 1 else width
  let cap_part := style &&& 0xF00
  let linecap_ : String :=
    if cap_part = FL_CAP_SQUARE then "square"
    else if cap_part = FL_CAP_ROUND then "round"
    else "butt"
  let join_part := style &&& 0xF000
  let linejoin_ : String :=
    if join_part = FL_JOIN_BEVEL then "bevel"
    else if join_part = FL_JOIN_MITER then "miter"
    else if join_part = FL_JOIN_ROUND then "round"
    else "miter"
  let ddashes : List ℚ :=
    if linedash_ ≠ [] then linedash_.map (fun c => (c : ℚ))
    else if style &&& 0xff ≠ 0 then
      if style &&& 0x200 ≠ 0 then
        ((dashes_cap.getD (style &&& 0xff) []).takeWhile
            (fun q => 0 ≤ q)).map (fun q => (width : ℚ) * q)
      else
        ((dashes_flat.getD (style &&& 0xff) []).takeWhile
            (fun i => 0 ≤ i)).map (fun i => ((width * i : Int) : ℚ))
    else []
  ⟨width, linecap_, linejoin_, linedash_, ddashes⟩

/-- The built-in dash patterns as the spec describes them: the
`dashes_flat` rows without their -1 terminators. -/
def dash_pattern_flat : List (List Int) :=
  [[], [3, 1], [1, 1], [3, 1, 1, 1], [3, 1, 1, 1, 1, 1]]

/-- The built-in cap-adjusted dash patterns: the `dashes_cap` rows
without their -1 terminators. -/
def dash_pattern_cap : List (List ℚ) :=
  [[], [2, 2], [1/100, 199/100], [2, 2, 1/100, 199/100],
   [2, 2, 1/100, 199/100, 1/100, 199/100]]

/-- The fields of `Fl_RGB_Image` that `draw_fixed` reads: depth `d()`,
`data_w()`, `data_h()` and the pixel buffer `array` (`none` for a null
pointer; bytes). -/
structure RGBImage where
  d : Nat
  data_w : Nat
  data_h : Nat
  array : Option (List Nat)
deriving DecidableEq, Repr

/-- Case `4` of the `draw_fixed` conversion switch: every byte is
copied unchanged. -/
def conv4 (a : List Nat) : List Nat := a

/-- Case `3`: R, G, B copied, alpha byte 255 appended per pixel. -/
def conv3 : List Nat → List Nat
  | r :: g :: b :: rest => r :: g :: b :: 255 :: conv3 rest
  | _ => []

/-- Case `2`: the first channel replicated into R, G and B, the second
used as alpha. -/
def conv2 : List Nat → List Nat
  | c :: a :: rest => c :: c :: c :: a :: conv2 rest
  | _ => []

/-- Case `1`: the single channel replicated into R, G and B with
alpha 255. -/
def conv1 : List Nat → List Nat
  | c :: rest => c :: c :: c :: 255 :: conv1 rest
  | [] => []

/-- What `draw_fixed` ends up doing: drawing the empty image, returning
early because `start_image` clipped everything away, or handing an
RGBA8888 buffer to the canvas. -/
inductive DrawFixedResult
  | empty
  | clipped
  | image (data : List Nat) (w h : Nat)
deriving DecidableEq, Repr

/-- `Fl_Emscripten_Graphics_Driver::draw_fixed(Fl_RGB_Image*, ...)`:
draws the empty image when the depth is 0 or the data array null;
returns early when the toolkit's `start_image` helper (external code,
modelled by the flag `startImageFails`) reports nothing to draw;
otherwise converts the pixels to RGBA8888 by the depth switch and puts
the resulting buffer on the canvas. -/
def draw_fixed (img : RGBImage) (startImageFails : Bool) : DrawFixedResult :=
  if img.d = 0 ∨ img.array = none then DrawFixedResult.empty
  else if startImageFails then DrawFixedResult.clipped
  else
    let a := img.array.getD []
    let image_data :=
      if img.d = 4 then conv4 a
      else if img.d = 3 then conv3 a
      else if img.d = 2 then conv2 a
      else if img.d = 1 then conv1 a
      else []
    DrawFixedResult.image image_data img.data_w img.data_h

/-- The claim's per-pixel conversion rule, stated from the spec's
words: depth 4 copied unchanged, depth 3 gains alpha 255, depth 2
replicates the first channel with the second as alpha, depth 1
replicates the single channel with alpha 255. -/
def specPixelRGBA (d : Nat) (px : List Nat) : List Nat :=
  match d, px with
  | 4, [r, g, b, a] => [r, g, b, a]
  | 3, [r, g, b] => [r, g, b, 255]
  | 2, [c, a] => [c, c, c, a]
  | 1, [c] => [c, c, c, 255]
  | _, _ => []

/-- The buffer built by
`Fl_Emscripten_Graphics_Driver::draw_image(Fl_Draw_Image_Cb, ...)`
before it hands the rows to `draw_rgb`: row `l` is what the callback
wrote (`call l`, `iw * D` bytes at offset `l * D * iw`), and when `D`
is even the byte at offset `i * D + D - 1` of each pixel `i` of the row
is overwritten with 0xff. -/
def draw_image_cb_array (call : Nat → List Nat) (iw ih D : Nat) :
    List Nat :=
  ((List.range ih).map (fun l =>
    let row := call l
    if D % 2 = 0 then
      (List.range iw).foldl (fun r i => r.set (i * D + D - 1) 255) row
    else row)).flatten

/-- Unfolds `clip_box` on a non-empty stack whose top entry is not a
no-clip entry, inlining the C locals. -/
lemma clip_box_cons (c : EmClip) (rest : List EmClip) (x y w h H0 : Int)
    (hc : ¬ c.w < 0) :
    clip_box (c :: rest) x y w h H0 =
      if (if x + w < c.x + c.w then x + w - (if x > c.x then x else c.x)
          else c.x + c.w - (if x > c.x then x else c.x)) < 0 then
        ⟨1, if x > c.x then x else c.x, if y > c.y then y else c.y, 0, H0⟩
      else if (if y + h < c.y + c.h then y + h - (if y > c.y then y else c.y)
               else c.y + c.h - (if y > c.y then y else c.y)) < 0 then
        ⟨1, if x > c.x then x else c.x, if y > c.y then y else c.y, 0, 0⟩
      else
        ⟨if y + h < c.y + c.h then 1
         else if x + w < c.x + c.w then 1
         else if y > c.y then 1
         else if x > c.x then 1 else 0,
         if x > c.x then x else c.x,
         if y > c.y then y else c.y,
         if x + w < c.x + c.w then x + w - (if x > c.x then x else c.x)
         else c.x + c.w - (if x > c.x then x else c.x),
         if y + h < c.y + c.h then y + h - (if y > c.y then y else c.y)
         else c.y + c.h - (if y > c.y then y else c.y)⟩ := by
  simp only [clip_box, if_neg hc]

/-- Behaviour of `clip_box` on a stack whose top is a genuine clip
rectangle: the outputs are the clamped intersection and the return
value is zero exactly when the input rectangle contains the clip
rectangle. -/
lemma clip_box_cons_spec (c : EmClip) (rest : List EmClip) (x y w h : Int)
    (hc : 0 ≤ c.w) (hch : 0 ≤ c.h) :
    (clip_box (c :: rest) x y w h 0).X = max x c.x ∧
    (clip_box (c :: rest) x y w h 0).Y = max y c.y ∧
    (clip_box (c :: rest) x y w h 0).W =
      (if min (x + w) (c.x + c.w) - max x c.x < 0 ∨
          min (y + h) (c.y + c.h) - max y c.y < 0 then 0
       else min (x + w) (c.x + c.w) - max x c.x) ∧
    (clip_box (c :: rest) x y w h 0).H =
      (if min (x + w) (c.x + c.w) - max x c.x < 0 ∨
          min (y + h) (c.y + c.h) - max y c.y < 0 then 0
       else min (y + h) (c.y + c.h) - max y c.y) ∧
    ((clip_box (c :: rest) x y w h 0).ret = 0 ↔
      (x ≤ c.x ∧ y ≤ c.y ∧ c.x + c.w ≤ x + w ∧ c.y + c.h ≤ y + h)) := by
  have hmax : max x c.x = if x > c.x then x else c.x := by
    rcases le_or_lt x c.x with h1 | h1 <;> simp [max_def] <;> omega
  have hmay : max y c.y = if y > c.y then y else c.y := by
    rcases le_or_lt y c.y with h1 | h1 <;> simp [max_def] <;> omega
  have hmiw : min (x + w) (c.x + c.w) =
      if x + w < c.x + c.w then x + w else c.x + c.w := by
    rcases le_or_lt (x + w) (c.x + c.w) with h1 | h1 <;> simp [min_def] <;> omega
  have hmih : min (y + h) (c.y + c.h) =
      if y + h < c.y + c.h then y + h else c.y + c.h := by
    rcases le_or_lt (y + h) (c.y + c.h) with h1 | h1 <;> simp [min_def] <;> omega
  rw [clip_box_cons c rest x y w h 0 (by omega), hmax, hmay, hmiw, hmih]
  split_ifs <;> simp only [ClipBox.mk.injEq, true_and, and_true, true_iff] <;> omega

/-- C1 (corrected): with no clip pushed, `clip_box` returns 0 and copies
the rectangle; with a no-clip top entry it returns 1 and copies the
rectangle; with a genuine top clip rectangle it outputs the
intersection with `W` and `H` clamped to 0 when the intersection is
empty, and returns 0 exactly when the input rectangle contains the top
clip rectangle (not, as the claim stated, exactly when the intersection
equals the input). -/
theorem clip_box_spec (stack : List EmClip) (c : EmClip) (rest : List EmClip)
    (x y w h : Int) (hc : 0 ≤ c.w) (hch : 0 ≤ c.h) :
    clip_box [] x y w h 0 = ⟨0, x, y, w, h⟩ ∧
    clip_box (push_no_clip stack) x y w h 0 = ⟨1, x, y, w, h⟩ ∧
    (clip_box (c :: rest) x y w h 0).X = max x c.x ∧
    (clip_box (c :: rest) x y w h 0).Y = max y c.y ∧
    (clip_box (c :: rest) x y w h 0).W =
      (if min (x + w) (c.x + c.w) - max x c.x < 0 ∨
          min (y + h) (c.y + c.h) - max y c.y < 0 then 0
       else min (x + w) (c.x + c.w) - max x c.x) ∧
    (clip_box (c :: rest) x y w h 0).H =
      (if min (x + w) (c.x + c.w) - max x c.x < 0 ∨
          min (y + h) (c.y + c.h) - max y c.y < 0 then 0
       else min (y + h) (c.y + c.h) - max y c.y) ∧
    ((clip_box (c :: rest) x y w h 0).ret = 0 ↔
      (x ≤ c.x ∧ y ≤ c.y ∧ c.x + c.w ≤ x + w ∧ c.y + c.h ≤ y + h)) := by
  obtain ⟨h1, h2, h3, h4, h5⟩ := clip_box_cons_spec c rest x y w h hc hch
  exact ⟨rfl, rfl, h1, h2, h3, h4, h5⟩

/-- Witness for `clip_box_spec` at a concrete clip rectangle and input
rectangle. -/
theorem clip_box_spec_witness :
    ((0 : Int) ≤ 10 ∧ (0 : Int) ≤ 10) ∧
    (clip_box [] 1 2 3 4 0 = ⟨0, 1, 2, 3, 4⟩ ∧
     clip_box (push_no_clip []) 1 2 3 4 0 = ⟨1, 1, 2, 3, 4⟩ ∧
     (clip_box [(⟨0, 0, 10, 10⟩ : EmClip)] 1 2 3 4 0).X = max 1 0 ∧
     (clip_box [(⟨0, 0, 10, 10⟩ : EmClip)] 1 2 3 4 0).Y = max 2 0 ∧
     (clip_box [(⟨0, 0, 10, 10⟩ : EmClip)] 1 2 3 4 0).W =
       (if min ((1 : Int) + 3) (0 + 10) - max 1 0 < 0 ∨
           min ((2 : Int) + 4) (0 + 10) - max 2 0 < 0 then 0
        else min ((1 : Int) + 3) (0 + 10) - max 1 0) ∧
     (clip_box [(⟨0, 0, 10, 10⟩ : EmClip)] 1 2 3 4 0).H =
       (if min ((1 : Int) + 3) (0 + 10) - max 1 0 < 0 ∨
           min ((2 : Int) + 4) (0 + 10) - max 2 0 < 0 then 0
        else min ((2 : Int) + 4) (0 + 10) - max 2 0) ∧
     ((clip_box [(⟨0, 0, 10, 10⟩ : EmClip)] 1 2 3 4 0).ret = 0 ↔
       ((1 : Int) ≤ 0 ∧ (2 : Int) ≤ 0 ∧ (0 : Int) + 10 ≤ 1 + 3 ∧
        (0 : Int) + 10 ≤ 2 + 4))) :=
  ⟨⟨by decide, by decide⟩,
   clip_box_spec [] ⟨0, 0, 10, 10⟩ [] 1 2 3 4 (by decide) (by decide)⟩

/-- C1 counterexample: for the rectangle (1,1,2,2) strictly inside the
clip rectangle (0,0,10,10) the intersection equals the input rectangle
yet `clip_box` returns 1; for the rectangle (0,0,10,10) containing the
clip rectangle (2,2,3,3) the intersection differs from the input yet
`clip_box` returns 0. -/
theorem clip_box_ret_counterexample :
    clip_box [(⟨0, 0, 10, 10⟩ : EmClip)] 1 1 2 2 0 = ⟨1, 1, 1, 2, 2⟩ ∧
    clip_box [(⟨2, 2, 3, 3⟩ : EmClip)] 0 0 10 10 0 = ⟨0, 2, 2, 3, 3⟩ := by
  decide

/-- C2 (confirmed): `push_clip` and `push_no_clip` each push exactly one
entry, `pop_clip` removes exactly one, push followed by pop restores
the previous clip state, and popping an empty stack changes nothing. -/
theorem push_pop_clip_spec (stack : List EmClip) (x y w h : Int) :
    (push_clip stack x y w h).length = stack.length + 1 ∧
    (push_no_clip stack).length = stack.length + 1 ∧
    pop_clip (push_clip stack x y w h) = stack ∧
    pop_clip (push_no_clip stack) = stack ∧
    pop_clip ([] : List EmClip) = [] := by
  simp [push_clip, push_no_clip, pop_clip]

/-- C3 (corrected): `not_clipped` returns 1 with no clip region or a
no-clip top entry; with a genuine top clip rectangle it returns 1
exactly when the intersection has positive width and nonnegative
height — so a rectangle whose overlap with the clip region has zero
height (entirely above or below it) is still reported as not clipped,
contrary to the claim's non-empty-intersection reading. -/
theorem not_clipped_spec (stack : List EmClip) (c : EmClip) (rest : List EmClip)
    (x y w h : Int) (hc : 0 ≤ c.w) (hch : 0 ≤ c.h) :
    not_clipped [] x y w h = 1 ∧
    not_clipped (push_no_clip stack) x y w h = 1 ∧
    (not_clipped (c :: rest) x y w h = 1 ↔
      (0 < min (x + w) (c.x + c.w) - max x c.x ∧
       0 ≤ min (y + h) (c.y + c.h) - max y c.y)) := by
  obtain ⟨hX, hY, hW, hH, hret⟩ := clip_box_cons_spec c rest x y w h hc hch
  refine ⟨rfl, rfl, ?_⟩
  simp only [not_clipped]
  rw [if_neg (by omega)]
  split_ifs with hw
  · rw [hW] at hw
    constructor
    · intro _
      by_contra hcon
      rw [if_pos (by omega)] at hw
      omega
    · intro _; rfl
  · rw [hW] at hw
    constructor
    · intro hcon; omega
    · intro hcon
      exfalso
      rw [if_neg (by omega)] at hw
      omega

/-- Witness for `not_clipped_spec` at a concrete clip rectangle. -/
theorem not_clipped_spec_witness :
    ((0 : Int) ≤ 10 ∧ (0 : Int) ≤ 10) ∧
    (not_clipped [] 1 2 3 4 = 1 ∧
     not_clipped (push_no_clip []) 1 2 3 4 = 1 ∧
     (not_clipped [(⟨0, 0, 10, 10⟩ : EmClip)] 1 2 3 4 = 1 ↔
       (0 < min ((1 : Int) + 3) (0 + 10) - max 1 0 ∧
        0 ≤ min ((2 : Int) + 4) (0 + 10) - max 2 0))) :=
  ⟨⟨by decide, by decide⟩,
   not_clipped_spec [] ⟨0, 0, 10, 10⟩ [] 1 2 3 4 (by decide) (by decide)⟩

/-- C3 counterexample: the rectangle (0,10,5,5) lies entirely below the
clip rectangle (0,0,10,10) — the intersection of the two is empty, its
height being `min (10+5) (0+10) - max 10 0 = 0` — yet `not_clipped`
reports 1. -/
theorem not_clipped_counterexample :
    not_clipped [(⟨0, 0, 10, 10⟩ : EmClip)] 0 10 5 5 = 1 ∧
    min ((10 : Int) + 5) ((0 : Int) + 10) - max (10 : Int) (0 : Int) = 0 := by
  decide

lemma special_key_loop_of_not_mem (k : String) (l : List String) (base : Nat)
    (h : k ∉ l) : special_key_loop k l base = -1 := by
  induction l generalizing base with
  | nil => rfl
  | cons s rest ih =>
    simp only [special_key_loop]
    rw [if_neg (by rintro rfl; exact h (List.mem_cons_self _ _))]
    exact ih _ (fun hm => h (List.mem_cons_of_mem _ hm))

lemma special_key_loop_first (k : String) (l : List String) (base i : Nat)
    (hi : l.get? i = some k) (hmin : ∀ j, j < i → l.get? j ≠ some k) :
    special_key_loop k l base = ((base + i : Nat) : Int) := by
  induction l generalizing base i with
  | nil => simp at hi
  | cons s rest ih =>
    by_cases hs : s = k
    · subst hs
      have hi0 : i = 0 := by
        by_contra hne
        exact hmin 0 (Nat.pos_of_ne_zero hne) rfl
      subst hi0
      simp [special_key_loop]
    · cases i with
      | zero =>
        exfalso
        apply hs
        simpa using hi
      | succ i' =>
        simp only [special_key_loop, if_neg hs]
        have hstep := ih (base + 1) i' (by simpa using hi)
          (fun j hj => by simpa using hmin (j + 1) (by omega))
        rw [hstep]
        push_cast
        ring

lemma set_keysym_state_bits (old_state : Nat) (ev : KeyEvent) :
    ((set_keysym_and_state old_state ev).e_state.testBit 18 =
      (ev.ctrlKey || old_state.testBit 18)) ∧
    ((set_keysym_and_state old_state ev).e_state.testBit 19 =
      (ev.altKey || old_state.testBit 19)) ∧
    ((set_keysym_and_state old_state ev).e_state.testBit 16 =
      (ev.shiftKey || old_state.testBit 16)) ∧
    ((set_keysym_and_state old_state ev).e_state.testBit 22 =
      (ev.metaKey || old_state.testBit 22)) := by
  have m16 : Nat.testBit 16711680 16 = true := by decide
  have m18 : Nat.testBit 16711680 18 = true := by decide
  have m19 : Nat.testBit 16711680 19 = true := by decide
  have m22 : Nat.testBit 16711680 22 = true := by decide
  have c16 : Nat.testBit 262144 16 = false := by decide
  have c18 : Nat.testBit 262144 18 = true := by decide
  have c19 : Nat.testBit 262144 19 = false := by decide
  have c22 : Nat.testBit 262144 22 = false := by decide
  have a16 : Nat.testBit 524288 16 = false := by decide
  have a18 : Nat.testBit 524288 18 = false := by decide
  have a19 : Nat.testBit 524288 19 = true := by decide
  have a22 : Nat.testBit 524288 22 = false := by decide
  have s16 : Nat.testBit 65536 16 = true := by decide
  have s18 : Nat.testBit 65536 18 = false := by decide
  have s19 : Nat.testBit 65536 19 = false := by decide
  have s22 : Nat.testBit 65536 22 = false := by decide
  have w16 : Nat.testBit 4194304 16 = false := by decide
  have w18 : Nat.testBit 4194304 18 = false := by decide
  have w19 : Nat.testBit 4194304 19 = false := by decide
  have w22 : Nat.testBit 4194304 22 = true := by decide
  rcases ev with ⟨k, cb, ab, sb, mb⟩
  cases cb <;> cases ab <;> cases sb <;> cases mb <;>
    simp [set_keysym_and_state, Nat.testBit_lor, Nat.testBit_land,
      FL_CTRL, FL_ALT, FL_SHIFT, FL_META,
      m16, m18, m19, m22, c16, c18, c19, c22, a16, a18, a19, a22,
      s16, s18, s19, s22, w16, w18, w19, w22]

/-- C5 (corrected): for every keyboard event, when the key string
equals an entry of `special_keys`, `Fl::e_keysym` is the FLTK key code
at the index of the first matching entry, `Fl::e_length` is 0 and
`Fl::e_text` is empty; otherwise `Fl::e_keysym` is the first byte of
the key string (read through a signed C `char`), `Fl::e_text` is the
key string and `Fl::e_length` its byte length. Each of the FL_CTRL
(bit 18), FL_ALT (bit 19), FL_SHIFT (bit 16) and FL_META (bit 22) bits
of `Fl::e_state` is set iff the event's modifier flag is set OR the bit
was already set in the old `Fl::e_state` — the handler keeps the old
bits 16-23 and only ORs new ones in, so a stale modifier bit is never
cleared, contrary to the claim's if-and-only-if reading. -/
theorem set_keysym_and_state_spec (old_state : Nat) (ev : KeyEvent) :
    (∀ i : Nat, special_keys.get? i = some ev.key →
      (∀ j, j < i → special_keys.get? j ≠ some ev.key) →
      (set_keysym_and_state old_state ev).e_keysym =
        special_keys_equiv.getD i 0 ∧
      (set_keysym_and_state old_state ev).e_length = 0 ∧
      (set_keysym_and_state old_state ev).e_text = "") ∧
    (ev.key ∉ special_keys →
      (set_keysym_and_state old_state ev).e_keysym = strFirstByte ev.key ∧
      (set_keysym_and_state old_state ev).e_text = ev.key ∧
      (set_keysym_and_state old_state ev).e_length =
        ev.key.utf8ByteSize) ∧
    ((set_keysym_and_state old_state ev).e_state.testBit 18 =
      (ev.ctrlKey || old_state.testBit 18)) ∧
    ((set_keysym_and_state old_state ev).e_state.testBit 19 =
      (ev.altKey || old_state.testBit 19)) ∧
    ((set_keysym_and_state old_state ev).e_state.testBit 16 =
      (ev.shiftKey || old_state.testBit 16)) ∧
    ((set_keysym_and_state old_state ev).e_state.testBit 22 =
      (ev.metaKey || old_state.testBit 22)) := by
  obtain ⟨hb1, hb2, hb3, hb4⟩ := set_keysym_state_bits old_state ev
  refine ⟨?_, ?_, hb1, hb2, hb3, hb4⟩
  · intro i hi hmin
    have hsk : special_key ev.key = (i : Int) := by
      have := special_key_loop_first ev.key special_keys 0 i hi hmin
      simpa [special_key] using this
    simp [set_keysym_and_state, hsk]
  · intro hmem
    have hsk : special_key ev.key = -1 :=
      special_key_loop_of_not_mem _ _ _ hmem
    simp [set_keysym_and_state, hsk]

/-- Witness for `set_keysym_and_state_spec` at the "Enter" key (index
3 of the table) with no modifiers. -/
theorem set_keysym_and_state_spec_witness :
    ((set_keysym_and_state 0 ⟨"Enter", false, false, false, false⟩).e_keysym =
      special_keys_equiv.getD 3 0 ∧
     (set_keysym_and_state 0 ⟨"Enter", false, false, false, false⟩).e_length =
      0 ∧
     (set_keysym_and_state 0 ⟨"Enter", false, false, false, false⟩).e_text =
      "") ∧
    ((set_keysym_and_state 0
        ⟨"Enter", false, false, false, false⟩).e_state.testBit 18 =
      (false || (0 : Nat).testBit 18)) :=
  ⟨(set_keysym_and_state_spec 0 ⟨"Enter", false, false, false, false⟩).1 3
      (by decide) (by decide),
   (set_keysym_and_state_spec 0
      ⟨"Enter", false, false, false, false⟩).2.2.1⟩

/-- C5 counterexample: (a) with FL_CTRL (bit 18) already set in the old
`Fl::e_state` and an event whose `ctrlKey` flag is false, the handler
leaves the FL_CTRL bit set, so the bit is not set "if and only if" the
event's flag is set; (b) for the non-special key "é" the value stored
in `Fl::e_keysym` is the sign-extended C `char` -61, not the first
byte 0xC3 = 195 of the key string. -/
theorem set_keysym_and_state_counterexample :
    ((set_keysym_and_state 0x40000
        ⟨"a", false, false, false, false⟩).e_state.testBit 18 = true) ∧
    (set_keysym_and_state 0 ⟨"é", false, false, false, false⟩).e_keysym =
      -61 ∧ (-61 : Int) ≠ 195 := by
  refine ⟨by decide, ?_, by decide⟩
  decide

/-- C6 (confirmed): browser mouse events map to FLTK events as claimed
(mousedown, dblclick and click to FL_PUSH with `Fl::e_clicks` 1 only
for dblclick; mouseup to FL_RELEASE; mousemove/enter/leave to
FL_MOVE/FL_ENTER/FL_LEAVE; everything else to 0); on FL_PUSH button n
in {0,1,2} sets the FL_BUTTON(n+1) state bit (bit 24+n) and
`Fl::e_keysym = FL_Button + n + 1`; on FL_RELEASE that bit is clear in
the new state; and on release `Fl::e_is_click` becomes 0 when the
pointer moved more than 5 pixels in x or in y from the press position,
else keeps its old value. -/
theorem handle_mouse_ev_spec (g : MouseGlobals) (ev : MouseEvent) :
    (handle_mouse_ev g ev).2 = match_mouse_event ev.eventType ∧
    match_mouse_event EMSCRIPTEN_EVENT_MOUSEDOWN = FL_PUSH ∧
    match_mouse_event EMSCRIPTEN_EVENT_DBLCLICK = FL_PUSH ∧
    match_mouse_event EMSCRIPTEN_EVENT_CLICK = FL_PUSH ∧
    match_mouse_event EMSCRIPTEN_EVENT_MOUSEUP = FL_RELEASE ∧
    match_mouse_event EMSCRIPTEN_EVENT_MOUSEMOVE = FL_MOVE ∧
    match_mouse_event EMSCRIPTEN_EVENT_MOUSEENTER = FL_ENTER ∧
    match_mouse_event EMSCRIPTEN_EVENT_MOUSELEAVE = FL_LEAVE ∧
    (∀ t : Int, t ∉ ([EMSCRIPTEN_EVENT_CLICK, EMSCRIPTEN_EVENT_MOUSEDOWN,
        EMSCRIPTEN_EVENT_MOUSEUP, EMSCRIPTEN_EVENT_DBLCLICK,
        EMSCRIPTEN_EVENT_MOUSEMOVE, EMSCRIPTEN_EVENT_MOUSEENTER,
        EMSCRIPTEN_EVENT_MOUSELEAVE] : List Int) →
      match_mouse_event t = 0) ∧
    (match_mouse_event ev.eventType = FL_PUSH →
      ((handle_mouse_ev g ev).1.e_clicks =
        (if ev.eventType = EMSCRIPTEN_EVENT_DBLCLICK then 1 else 0)) ∧
      (∀ n : Nat, n < 3 → ev.button = n →
        (handle_mouse_ev g ev).1.e_state.testBit (24 + n) = true ∧
        (handle_mouse_ev g ev).1.e_keysym = FL_Button + n + 1)) ∧
    (match_mouse_event ev.eventType = FL_RELEASE →
      (∀ n : Nat, n < 3 → ev.button = n →
        (handle_mouse_ev g ev).1.e_state.testBit (24 + n) = false) ∧
      (handle_mouse_ev g ev).1.e_is_click =
        (if 5 < (ev.clientX - g.px).natAbs ∨ 5 < (ev.clientY - g.py).natAbs
         then 0 else g.e_is_click) ∧
      (g.e_is_click = 1 →
        ((handle_mouse_ev g ev).1.e_is_click = 0 ↔
          (5 < (ev.clientX - g.px).natAbs ∨
           5 < (ev.clientY - g.py).natAbs)))) := by
  have b24 : Nat.testBit 16711680 24 = false := by decide
  have b25 : Nat.testBit 16711680 25 = false := by decide
  have b26 : Nat.testBit 16711680 26 = false := by decide
  have p24 : Nat.testBit 16777216 24 = true := by decide
  have p25 : Nat.testBit 33554432 25 = true := by decide
  have p26 : Nat.testBit 67108864 26 = true := by decide
  refine ⟨?_, by decide, by decide, by decide, by decide, by decide,
    by decide, by decide, ?_, ?_, ?_⟩
  · simp only [handle_mouse_ev]
    split_ifs <;> rfl
  · intro t hmem
    simp only [List.mem_cons, List.not_mem_nil, or_false, not_or,
      EMSCRIPTEN_EVENT_CLICK, EMSCRIPTEN_EVENT_MOUSEDOWN,
      EMSCRIPTEN_EVENT_MOUSEUP, EMSCRIPTEN_EVENT_DBLCLICK,
      EMSCRIPTEN_EVENT_MOUSEMOVE, EMSCRIPTEN_EVENT_MOUSEENTER,
      EMSCRIPTEN_EVENT_MOUSELEAVE] at hmem
    obtain ⟨h4, h5, h6, h7, h8, h33, h34⟩ := hmem
    simp [match_mouse_event, EMSCRIPTEN_EVENT_CLICK,
      EMSCRIPTEN_EVENT_MOUSEDOWN, EMSCRIPTEN_EVENT_MOUSEUP,
      EMSCRIPTEN_EVENT_DBLCLICK, EMSCRIPTEN_EVENT_MOUSEMOVE,
      EMSCRIPTEN_EVENT_MOUSEENTER, EMSCRIPTEN_EVENT_MOUSELEAVE,
      h4, h5, h6, h7, h8, h33, h34]
  · intro hpush
    have hnr : match_mouse_event ev.eventType ≠ FL_RELEASE := by
      rw [hpush]; decide
    constructor
    · simp [handle_mouse_ev, hpush]
    · intro n hn hbtn
      interval_cases n <;>
        simp [handle_mouse_ev, hpush, hbtn, Nat.testBit_lor,
          Nat.testBit_land, FL_BUTTON1, FL_BUTTON2, FL_BUTTON3,
          b24, b25, b26, p24, p25, p26, FL_PUSH, FL_RELEASE]
  · intro hrel
    have hnp : match_mouse_event ev.eventType ≠ FL_PUSH := by
      rw [hrel]; decide
    refine ⟨?_, ?_, ?_⟩
    · intro n hn hbtn
      interval_cases n <;>
        simp [handle_mouse_ev, hrel, hnp, hbtn, Nat.testBit_land,
          b24, b25, b26, FL_PUSH, FL_RELEASE]
    · simp [handle_mouse_ev, hrel, hnp, FL_PUSH, FL_RELEASE]
    · intro hclick
      simp only [handle_mouse_ev, hrel, FL_PUSH, FL_RELEASE,
        show ((2 : Int) = 1) = False by simp, if_false, reduceIte]
      split_ifs with hmv
      · simp [hmv]
      · simp [hclick, hmv]

/-- Witness for `handle_mouse_ev_spec`: a mouseup at (100, 100) after a
press recorded at (0, 0) with `Fl::e_is_click = 1`. -/
theorem handle_mouse_ev_spec_witness :
    (handle_mouse_ev ⟨0, 0, 0, 0, 0x1000000, 0, 1, 0, 0, 0⟩
        ⟨6, 0, 100, 100, 100, 100⟩).2 = match_mouse_event 6 ∧
    (match_mouse_event 6 = FL_RELEASE →
      (handle_mouse_ev ⟨0, 0, 0, 0, 0x1000000, 0, 1, 0, 0, 0⟩
          ⟨6, 0, 100, 100, 100, 100⟩).1.e_is_click =
        (if 5 < ((100 : Int) - 0).natAbs ∨ 5 < ((100 : Int) - 0).natAbs
         then 0 else 1)) := by
  obtain ⟨hd, _, _, _, _, _, _, _, _, _, hr⟩ :=
    handle_mouse_ev_spec ⟨0, 0, 0, 0, 0x1000000, 0, 1, 0, 0, 0⟩
      ⟨6, 0, 100, 100, 100, 100⟩
  exact ⟨hd, fun hm => (hr hm).2.1⟩

lemma conv4_pixel (j : Nat) (a : List Nat) (h : 4 * (j + 1) ≤ a.length) :
    ((conv4 a).drop (4 * j)).take 4 =
      specPixelRGBA 4 ((a.drop (4 * j)).take 4) := by
  have h4 : 4 ≤ (a.drop (4 * j)).length := by
    simp only [List.length_drop]
    omega
  rcases ht : a.drop (4 * j) with _ | ⟨x, _ | ⟨y, _ | ⟨z, _ | ⟨w, t⟩⟩⟩⟩ <;>
    rw [ht] at h4 <;> simp at h4 <;>
    simp [conv4, specPixelRGBA, ht]

lemma conv3_pixel (j : Nat) : ∀ a : List Nat, 3 * (j + 1) ≤ a.length →
    ((conv3 a).drop (4 * j)).take 4 =
      specPixelRGBA 3 ((a.drop (3 * j)).take 3) := by
  induction j with
  | zero =>
    intro a h
    rcases a with _ | ⟨r, _ | ⟨g, _ | ⟨b, rest⟩⟩⟩ <;> simp at h <;>
      simp [conv3, specPixelRGBA]
  | succ j ih =>
    intro a h
    rcases a with _ | ⟨r, _ | ⟨g, _ | ⟨b, rest⟩⟩⟩ <;> simp at h
    · omega
    · omega
    have h' : 3 * (j + 1) ≤ rest.length := by omega
    have e1 : conv3 (r :: g :: b :: rest) = r :: g :: b :: 255 :: conv3 rest :=
      rfl
    rw [e1, show 4 * (j + 1) = 4 + 4 * j from by ring,
      show 3 * (j + 1) = 3 + 3 * j from by ring,
      ← List.drop_drop, ← List.drop_drop,
      show (r :: g :: b :: 255 :: conv3 rest).drop 4 = conv3 rest from rfl,
      show (r :: g :: b :: rest).drop 3 = rest from rfl]
    exact ih rest h'

lemma conv2_pixel (j : Nat) : ∀ a : List Nat, 2 * (j + 1) ≤ a.length →
    ((conv2 a).drop (4 * j)).take 4 =
      specPixelRGBA 2 ((a.drop (2 * j)).take 2) := by
  induction j with
  | zero =>
    intro a h
    rcases a with _ | ⟨c, _ | ⟨al, rest⟩⟩ <;> simp at h <;>
      simp [conv2, specPixelRGBA]
  | succ j ih =>
    intro a h
    rcases a with _ | ⟨c, _ | ⟨al, rest⟩⟩ <;> simp at h
    · omega
    have h' : 2 * (j + 1) ≤ rest.length := by omega
    have e1 : conv2 (c :: al :: rest) = c :: c :: c :: al :: conv2 rest := rfl
    rw [e1, show 4 * (j + 1) = 4 + 4 * j from by ring,
      show 2 * (j + 1) = 2 + 2 * j from by ring,
      ← List.drop_drop, ← List.drop_drop,
      show (c :: c :: c :: al :: conv2 rest).drop 4 = conv2 rest from rfl,
      show (c :: al :: rest).drop 2 = rest from rfl]
    exact ih rest h'

lemma conv1_pixel (j : Nat) : ∀ a : List Nat, 1 * (j + 1) ≤ a.length →
    ((conv1 a).drop (4 * j)).take 4 =
      specPixelRGBA 1 ((a.drop (1 * j)).take 1) := by
  induction j with
  | zero =>
    intro a h
    rcases a with _ | ⟨c, rest⟩ <;> simp at h <;>
      simp [conv1, specPixelRGBA]
  | succ j ih =>
    intro a h
    rcases a with _ | ⟨c, rest⟩ <;> simp at h
    have h' : 1 * (j + 1) ≤ rest.length := by omega
    have e1 : conv1 (c :: rest) = c :: c :: c :: 255 :: conv1 rest := rfl
    rw [e1, show 4 * (j + 1) = 4 + 4 * j from by ring,
      show 1 * (j + 1) = 1 + 1 * j from by ring,
      ← List.drop_drop, ← List.drop_drop,
      show (c :: c :: c :: 255 :: conv1 rest).drop 4 = conv1 rest from rfl,
      show (c :: rest).drop 1 = rest from rfl]
    exact ih rest h'

lemma conv3_length (n : Nat) : ∀ a : List Nat, a.length = 3 * n →
    (conv3 a).length = 4 * n := by
  induction n with
  | zero =>
    intro a h
    obtain rfl : a = [] := List.length_eq_zero.mp (by omega)
    simp [conv3]
  | succ n ih =>
    intro a h
    rcases a with _ | ⟨r, _ | ⟨g, _ | ⟨b, rest⟩⟩⟩ <;> simp at h <;>
      try omega
    have e1 : conv3 (r :: g :: b :: rest) = r :: g :: b :: 255 :: conv3 rest :=
      rfl
    rw [e1]
    simp only [List.length_cons]
    rw [ih rest (by omega)]
    ring

lemma conv2_length (n : Nat) : ∀ a : List Nat, a.length = 2 * n →
    (conv2 a).length = 4 * n := by
  induction n with
  | zero =>
    intro a h
    obtain rfl : a = [] := List.length_eq_zero.mp (by omega)
    simp [conv2]
  | succ n ih =>
    intro a h
    rcases a with _ | ⟨c, _ | ⟨al, rest⟩⟩ <;> simp at h <;> try omega
    have e1 : conv2 (c :: al :: rest) = c :: c :: c :: al :: conv2 rest := rfl
    rw [e1]
    simp only [List.length_cons]
    rw [ih rest (by omega)]
    ring

lemma conv1_length (n : Nat) : ∀ a : List Nat, a.length = 1 * n →
    (conv1 a).length = 4 * n := by
  induction n with
  | zero =>
    intro a h
    obtain rfl : a = [] := List.length_eq_zero.mp (by omega)
    simp [conv1]
  | succ n ih =>
    intro a h
    rcases a with _ | ⟨c, rest⟩ <;> simp at h <;> try omega
    have e1 : conv1 (c :: rest) = c :: c :: c :: 255 :: conv1 rest := rfl
    rw [e1]
    simp only [List.length_cons]
    rw [ih rest (by omega)]
    ring

/-- C7 (confirmed, for the dash-style bytes 0-4 the built-in tables
define): `line_style` replaces a zero width by 1; FL_CAP_SQUARE and
FL_CAP_ROUND select canvas caps "square" and "round", any other cap
value "butt"; FL_JOIN_BEVEL/MITER/ROUND select "bevel"/"miter"/"round",
any other join value "miter"; the dash pattern applied to the canvas is
the caller's dashes array when non-empty, and otherwise, when the low
byte of style is nonzero, the built-in table entry for that byte with
each element multiplied by the adjusted width, taken from the
cap-adjusted table exactly when bit 0x200 of style is set. -/
theorem line_style_spec (style : Nat) (width : Int)
    (dashes : Option (List Int)) (hsty : style &&& 0xff < 5) :
    (line_style style width dashes).width_ =
      (if width = 0 then 1 else width) ∧
    (style &&& 0xF00 = FL_CAP_SQUARE →
      (line_style style width dashes).linecap_ = "square") ∧
    (style &&& 0xF00 = FL_CAP_ROUND →
      (line_style style width dashes).linecap_ = "round") ∧
    (style &&& 0xF00 ≠ FL_CAP_SQUARE → style &&& 0xF00 ≠ FL_CAP_ROUND →
      (line_style style width dashes).linecap_ = "butt") ∧
    (style &&& 0xF000 = FL_JOIN_BEVEL →
      (line_style style width dashes).linejoin_ = "bevel") ∧
    (style &&& 0xF000 = FL_JOIN_MITER →
      (line_style style width dashes).linejoin_ = "miter") ∧
    (style &&& 0xF000 = FL_JOIN_ROUND →
      (line_style style width dashes).linejoin_ = "round") ∧
    (style &&& 0xF000 ≠ FL_JOIN_BEVEL → style &&& 0xF000 ≠ FL_JOIN_MITER →
      style &&& 0xF000 ≠ FL_JOIN_ROUND →
      (line_style style width dashes).linejoin_ = "miter") ∧
    (∀ ds, dashes = some ds → ds ≠ [] →
      (line_style style width dashes).applied_dashes =
        ds.map (fun c => (c : ℚ))) ∧
    ((dashes = none ∨ dashes = some []) → style &&& 0xff ≠ 0 →
      (line_style style width dashes).applied_dashes =
        (if style &&& 0x200 ≠ 0 then
          (dash_pattern_cap.getD (style &&& 0xff) []).map
            (fun q => ((if width = 0 then 1 else width : Int) : ℚ) * q)
         else
          (dash_pattern_flat.getD (style &&& 0xff) []).map
            (fun i => (((if width = 0 then 1 else width) * i : Int) : ℚ)))) := by
  refine ⟨?_, ?_, ?_, ?_, ?_, ?_, ?_, ?_, ?_, ?_⟩
  · simp [line_style]
  · intro h
    simp [line_style, h, FL_CAP_SQUARE, FL_CAP_ROUND]
  · intro h
    simp [line_style, h, FL_CAP_SQUARE, FL_CAP_ROUND]
  · intro h1 h2
    simp [line_style, h1, h2]
  · intro h
    simp [line_style, h, FL_JOIN_BEVEL, FL_JOIN_MITER, FL_JOIN_ROUND]
  · intro h
    simp [line_style, h, FL_JOIN_BEVEL, FL_JOIN_MITER, FL_JOIN_ROUND]
  · intro h
    simp [line_style, h, FL_JOIN_BEVEL, FL_JOIN_MITER, FL_JOIN_ROUND]
  · intro h1 h2 h3
    simp [line_style, h1, h2, h3]
  · rintro ds rfl hne
    simp [line_style, hne]
  · rintro (rfl | rfl) hz <;>
    · simp only [line_style, ne_eq, not_true_eq_false, if_false,
        List.map_nil, ite_not]
      simp only [hz, if_false, ite_not, not_false_eq_true, if_true]
      generalize hk : style &&& 0xff = k at hz hsty ⊢
      interval_cases k <;> by_cases hbit : style &&& 0x200 = 0 <;>
        norm_num [hbit, dashes_cap, dashes_flat, dash_pattern_cap,
          dash_pattern_flat, List.takeWhile]

/-- Witness for `line_style_spec` at `style = FL_DASH | FL_CAP_ROUND`
(= 0x201), width 2 and a null dashes pointer. -/
theorem line_style_spec_witness :
    ((0x201 : Nat) &&& 0xff < 5) ∧
    ((0x201 : Nat) &&& 0xF00 = FL_CAP_ROUND →
      (line_style 0x201 2 none).linecap_ = "round") ∧
    (((none : Option (List Int)) = none ∨
        (none : Option (List Int)) = some []) →
      (0x201 : Nat) &&& 0xff ≠ 0 →
      (line_style 0x201 2 none).applied_dashes =
        (if (0x201 : Nat) &&& 0x200 ≠ 0 then
          (dash_pattern_cap.getD ((0x201 : Nat) &&& 0xff) []).map
            (fun q => ((if (2 : Int) = 0 then 1 else 2 : Int) : ℚ) * q)
         else
          (dash_pattern_flat.getD ((0x201 : Nat) &&& 0xff) []).map
            (fun i => (((if (2 : Int) = 0 then 1 else 2) * i : Int) : ℚ)))) :=
  ⟨by decide,
   (line_style_spec 0x201 2 none (by decide)).2.2.1,
   (line_style_spec 0x201 2 none (by decide)).2.2.2.2.2.2.2.2.2⟩

/-- C8 (confirmed): `draw_fixed` on an `Fl_RGB_Image` whose depth is 0
or whose data array is null draws the empty image with no conversion;
otherwise (when `start_image` leaves something to draw) it hands the
canvas an RGBA8888 buffer of `w*h` four-byte pixels in which pixel `j`
is the conversion of source pixel `j` by the per-depth rule: depth 4
copied, depth 3 with alpha 255 appended, depth 2 with the first channel
replicated and the second as alpha, depth 1 replicated with
alpha 255. -/
theorem draw_fixed_spec (img : RGBImage) (a : List Nat) (j : Nat)
    (ha : img.array = some a)
    (hlen : a.length = img.data_w * img.data_h * img.d)
    (hd1 : 1 ≤ img.d) (hd4 : img.d ≤ 4)
    (hj : j < img.data_w * img.data_h) :
    (∀ (im : RGBImage) (b : Bool), im.d = 0 ∨ im.array = none →
      draw_fixed im b = DrawFixedResult.empty) ∧
    ∃ out, draw_fixed img false = DrawFixedResult.image out img.data_w
        img.data_h ∧
      out.length = img.data_w * img.data_h * 4 ∧
      (out.drop (4 * j)).take 4 =
        specPixelRGBA img.d ((a.drop (img.d * j)).take img.d) := by
  constructor
  · intro im b him
    simp [draw_fixed, him]
  · have hne : ¬(img.d = 0 ∨ img.array = none) := by
      push_neg
      exact ⟨by omega, by simp [ha]⟩
    interval_cases hdi : img.d
    · refine ⟨conv1 a, ?_, ?_, ?_⟩
      · simp [draw_fixed, hne, ha, hdi]
      · rw [conv1_length (img.data_w * img.data_h) a (by omega)]
        ring
      · exact conv1_pixel j a (by omega)
    · refine ⟨conv2 a, ?_, ?_, ?_⟩
      · simp [draw_fixed, hne, ha, hdi]
      · rw [conv2_length (img.data_w * img.data_h) a (by omega)]
        ring
      · exact conv2_pixel j a (by omega)
    · refine ⟨conv3 a, ?_, ?_, ?_⟩
      · simp [draw_fixed, hne, ha, hdi]
      · rw [conv3_length (img.data_w * img.data_h) a (by omega)]
        ring
      · exact conv3_pixel j a (by omega)
    · refine ⟨conv4 a, ?_, ?_, ?_⟩
      · simp [draw_fixed, hne, ha, hdi]
      · simp only [conv4]
        omega
      · exact conv4_pixel j a (by omega)

/-- Witness for `draw_fixed_spec`: a 1x1 depth-2 image with pixel
bytes (7, 9) converts to the RGBA pixel (7, 7, 7, 9). -/
theorem draw_fixed_spec_witness :
    ((⟨2, 1, 1, some [7, 9]⟩ : RGBImage).array = some [7, 9] ∧
     ([7, 9] : List Nat).length = 1 * 1 * 2 ∧ (0 : Nat) < 1 * 1) ∧
    ∃ out, draw_fixed ⟨2, 1, 1, some [7, 9]⟩ false =
        DrawFixedResult.image out 1 1 ∧
      out.length = 1 * 1 * 4 ∧
      (out.drop (4 * 0)).take 4 =
        specPixelRGBA 2 ((([7, 9] : List Nat).drop (2 * 0)).take 2) :=
  ⟨⟨rfl, by decide, by decide⟩,
   (draw_fixed_spec ⟨2, 1, 1, some [7, 9]⟩ [7, 9] 0 rfl (by decide)
      (by decide) (by decide) (by decide)).2⟩

lemma flatten_get (L : Nat) :
    ∀ (rows : List (List Nat)) (l o : Nat),
      (∀ r ∈ rows, r.length = L) → l < rows.length → o < L →
      rows.flatten[l * L + o]? = (rows.getD l [])[o]? := by
  intro rows
  induction rows with
  | nil =>
    intro l o _ hl _
    simp at hl
  | cons r rest ih =>
    intro l o hlen hl ho
    have hr : r.length = L := hlen r (List.mem_cons_self r rest)
    cases l with
    | zero =>
      simp only [List.flatten_cons, Nat.zero_mul, Nat.zero_add]
      rw [List.getElem?_append_left (by omega)]
      simp [List.getD]
    | succ l =>
      simp only [List.flatten_cons]
      rw [show (l + 1) * L + o = L + (l * L + o) from by ring]
      rw [List.getElem?_append_right (by omega)]
      rw [show L + (l * L + o) - r.length = l * L + o from by omega]
      rw [ih l o (fun q hq => hlen q (List.mem_cons_of_mem r hq))
        (by simpa using hl) ho]
      simp [List.getD]

lemma set_row_length (D : Nat) (ks : List Nat) :
    ∀ row : List Nat,
      (ks.foldl (fun r i => r.set (i * D + D - 1) 255) row).length =
        row.length := by
  induction ks with
  | nil => intro row; rfl
  | cons k ks ih =>
    intro row
    simp only [List.foldl_cons]
    rw [ih]
    exact List.length_set row _ _

lemma set_row_get (D : Nat) (hD : 0 < D) :
    ∀ (iw : Nat) (row : List Nat) (i : Nat),
      iw * D ≤ row.length → i < iw →
      ((List.range iw).foldl (fun r k => r.set (k * D + D - 1) 255)
          row)[i * D + D - 1]? = some 255 := by
  intro iw
  induction iw with
  | zero =>
    intro row i _ hi
    omega
  | succ n ih =>
    intro row i hlen hi
    have hlen' : n * D + D ≤ row.length := by
      rw [show (n + 1) * D = n * D + D from by ring] at hlen
      omega
    rw [List.range_succ, List.foldl_append]
    simp only [List.foldl_cons, List.foldl_nil]
    have hplen :
        ((List.range n).foldl (fun r k => r.set (k * D + D - 1) 255)
          row).length = row.length := set_row_length D _ row
    by_cases hcase : i = n
    · subst hcase
      apply List.getElem?_set_eq_of_lt
      rw [hplen]
      omega
    · have hiD : i * D < n * D :=
        (Nat.mul_lt_mul_right hD).mpr (by omega)
      rw [List.getElem?_set_ne (by omega)]
      exact ih row i (by omega) (by omega)

/-- C10 (confirmed): when `draw_image` is called with a row callback
and an even positive depth `D` (each callback row being the `iw * D`
bytes the C code has it write), the byte at the last channel of every
pixel of the assembled buffer — offset `l*D*iw + i*D + D - 1` — is
0xff, regardless of what the callback wrote there, so callback-drawn
images with an alpha channel are always fully opaque. -/
theorem draw_image_cb_spec (call : Nat → List Nat) (iw ih D l i : Nat)
    (hD : D % 2 = 0) (hDpos : 0 < D)
    (hrow : ∀ r, (call r).length = iw * D)
    (hl : l < ih) (hi : i < iw) :
    (draw_image_cb_array call iw ih D)[l * D * iw + i * D + D - 1]? =
      some 255 := by
  have hoD : i * D + D ≤ iw * D := by
    have := (Nat.mul_le_mul_right D (show i + 1 ≤ iw from hi))
    rw [show (i + 1) * D = i * D + D from by ring] at this
    exact this
  have hidx : l * D * iw + i * D + D - 1 =
      l * (iw * D) + (i * D + D - 1) := by
    rw [show l * D * iw = l * (iw * D) from by ring]
    omega
  rw [hidx]
  unfold draw_image_cb_array
  rw [flatten_get (iw * D) _ l (i * D + D - 1) ?rowlen (by simpa using hl)
    (by omega)]
  case rowlen =>
    intro r hr
    simp only [List.mem_map] at hr
    obtain ⟨l', _, rfl⟩ := hr
    simp only [hD, if_pos]
    rw [set_row_length]
    exact hrow l'
  have hget : ((List.range ih).map (fun l =>
      let row := call l
      if D % 2 = 0 then
        (List.range iw).foldl (fun r i => r.set (i * D + D - 1) 255) row
      else row)).getD l [] =
      (List.range iw).foldl (fun r i => r.set (i * D + D - 1) 255)
        (call l) := by
    unfold List.getD
    rw [List.get?_eq_getElem?, List.getElem?_map, List.getElem?_range hl]
    simp [hD]
  rw [hget]
  exact set_row_get D hDpos iw (call l) i (hrow l).ge hi

/-- Witness for `draw_image_cb_spec`: a 2x1 depth-2 callback image;
the alpha byte of pixel 1 of row 0 (offset 3) reads 255 even though
the callback wrote 4 there. -/
theorem draw_image_cb_spec_witness :
    ((2 : Nat) % 2 = 0 ∧ (0 : Nat) < 2 ∧
     (∀ r : Nat, ((fun _ => [1, 2, 3, 4]) r : List Nat).length = 2 * 2) ∧
     (0 : Nat) < 1 ∧ (1 : Nat) < 2) ∧
    (draw_image_cb_array (fun _ => [1, 2, 3, 4]) 2 1 2)[0 * 2 * 2 + 1 * 2 +
      2 - 1]? = some 255 :=
  ⟨⟨by decide, by decide, by intro r; rfl, by decide, by decide⟩,
   draw_image_cb_spec (fun _ => [1, 2, 3, 4]) 2 1 2 0 1 (by decide)
     (by decide) (by intro r; rfl) (by decide) (by decide)⟩

/-- C4 (confirmed): every `begin_*` sets its shape mode and the gap
flag; every `end_*` returns the mode to NONE with the gap flag set; and
`arc` and `curve` called while the mode is NONE emit no canvas command
and leave the driver state unchanged. -/
theorem path_state_machine_spec (s s0 : DriverState)
    (x y r start stop x1 y1 x2 y2 x3 y3 : ℚ)
    (hnone : s0.what = ShapeMode.NONE) :
    ((begin_points s).1.what = ShapeMode.POINTS ∧ (begin_points s).1.gap_ = 1) ∧
    ((begin_line s).1.what = ShapeMode.LINE ∧ (begin_line s).1.gap_ = 1) ∧
    ((begin_loop s).1.what = ShapeMode.LOOP ∧ (begin_loop s).1.gap_ = 1) ∧
    ((begin_polygon s).1.what = ShapeMode.POLYGON ∧
     (begin_polygon s).1.gap_ = 1) ∧
    ((end_points s).1.what = ShapeMode.NONE ∧ (end_points s).1.gap_ = 1) ∧
    ((end_line s).1.what = ShapeMode.NONE ∧ (end_line s).1.gap_ = 1) ∧
    ((end_loop s).1.what = ShapeMode.NONE ∧ (end_loop s).1.gap_ = 1) ∧
    ((end_polygon s).1.what = ShapeMode.NONE ∧ (end_polygon s).1.gap_ = 1) ∧
    arc s0 x y r start stop = (s0, []) ∧
    curve s0 x y x1 y1 x2 y2 x3 y3 = (s0, []) := by
  refine ⟨⟨rfl, rfl⟩, ⟨rfl, rfl⟩, ⟨rfl, rfl⟩, ⟨rfl, rfl⟩, ⟨rfl, rfl⟩,
    ⟨rfl, rfl⟩, ⟨rfl, rfl⟩, ⟨rfl, rfl⟩, ?_, ?_⟩
  · simp [arc, hnone]
  · simp [curve, hnone]

/-- Witness for `path_state_machine_spec` at concrete driver states. -/
theorem path_state_machine_spec_witness :
    ((⟨ShapeMode.NONE, 1, ⟨1, 0, 0, 1, 0, 0⟩⟩ : DriverState).what =
      ShapeMode.NONE) ∧
    arc ⟨ShapeMode.NONE, 1, ⟨1, 0, 0, 1, 0, 0⟩⟩ 0 0 1 0 90 =
      (⟨ShapeMode.NONE, 1, ⟨1, 0, 0, 1, 0, 0⟩⟩, []) ∧
    curve ⟨ShapeMode.NONE, 1, ⟨1, 0, 0, 1, 0, 0⟩⟩ 0 0 1 1 2 2 3 3 =
      (⟨ShapeMode.NONE, 1, ⟨1, 0, 0, 1, 0, 0⟩⟩, []) := by
  obtain ⟨h1, h2, h3, h4, h5, h6, h7, h8, ha, hc⟩ :=
    path_state_machine_spec ⟨ShapeMode.LINE, 0, ⟨1, 0, 0, 1, 0, 0⟩⟩
      ⟨ShapeMode.NONE, 1, ⟨1, 0, 0, 1, 0, 0⟩⟩ 0 0 1 0 90 1 1 2 2 3 3 rfl
  exact ⟨rfl, ha, hc⟩

/-- C9 (corrected): `invert_matrix` returns -1 (`none`) exactly when
the int-truncated determinant is zero; it returns 0 with `newmatrix`
the inverse transform of `m` (composing in either order gives back the
point) exactly in the unimodular case, when the determinant
`a d − b c` is 1 or -1 — `invDet = 1 / det` is computed with integer
operands, so those are the only determinants for which the reciprocal
survives the division. -/
theorem invert_matrix_spec (m : GMatrix) (px py : ℚ)
    (hdet : m.a * m.d - m.b * m.c = 1 ∨ m.a * m.d - m.b * m.c = -1) :
    (∀ m' : GMatrix, invert_matrix m' = none ↔
      cTrunc (m'.a * m'.d - m'.b * m'.c) = 0) ∧
    ∃ n, invert_matrix m = some n ∧
      apply_matrix n (apply_matrix m px py).1 (apply_matrix m px py).2 =
        (px, py) ∧
      apply_matrix m (apply_matrix n px py).1 (apply_matrix n px py).2 =
        (px, py) := by
  constructor
  · intro m'
    simp only [invert_matrix]
    split_ifs with hz
    · simp [hz]
    · simp [hz]
  · rcases hdet with hd | hd
    · have hc : cTrunc (m.a * m.d - m.b * m.c) = 1 := by
        rw [hd]
        norm_num [cTrunc]
      have hv : Int.tdiv 1 1 = 1 := by decide
      have he : invert_matrix m = some ⟨m.d, -m.b, -m.c, m.a,
          m.c * m.y - m.d * m.x, m.b * m.x - m.a * m.y⟩ := by
        simp only [invert_matrix, hc, hv]
        norm_num
      refine ⟨_, he, ?_, ?_⟩
      · simp only [apply_matrix, Prod.mk.injEq]
        constructor
        · linear_combination px * hd
        · linear_combination py * hd
      · simp only [apply_matrix, Prod.mk.injEq]
        constructor
        · linear_combination (px - m.x) * hd
        · linear_combination (py - m.y) * hd
    · have hc : cTrunc (m.a * m.d - m.b * m.c) = -1 := by
        rw [hd]
        norm_num [cTrunc]
      have hv : Int.tdiv 1 (-1) = -1 := by decide
      have he : invert_matrix m = some ⟨-m.d, m.b, m.c, -m.a,
          -(m.c * m.y - m.d * m.x), -(m.b * m.x - m.a * m.y)⟩ := by
        simp only [invert_matrix, hc, hv]
        norm_num
      refine ⟨_, he, ?_, ?_⟩
      · simp only [apply_matrix, Prod.mk.injEq]
        constructor
        · linear_combination (-px) * hd
        · linear_combination (-py) * hd
      · simp only [apply_matrix, Prod.mk.injEq]
        constructor
        · linear_combination (-(px - m.x)) * hd
        · linear_combination (-(py - m.y)) * hd

/-- Witness for `invert_matrix_spec` at a concrete determinant-1
matrix. -/
theorem invert_matrix_spec_witness :
    ((2 : ℚ) * 1 - 1 * 1 = 1 ∨ (2 : ℚ) * 1 - 1 * 1 = -1) ∧
    ((∀ m' : GMatrix, invert_matrix m' = none ↔
        cTrunc (m'.a * m'.d - m'.b * m'.c) = 0) ∧
     ∃ n, invert_matrix ⟨2, 1, 1, 1, 3, 4⟩ = some n ∧
       apply_matrix n
           (apply_matrix ⟨2, 1, 1, 1, 3, 4⟩ 5 7).1
           (apply_matrix ⟨2, 1, 1, 1, 3, 4⟩ 5 7).2 = (5, 7) ∧
       apply_matrix ⟨2, 1, 1, 1, 3, 4⟩
           (apply_matrix n 5 7).1 (apply_matrix n 5 7).2 = (5, 7)) :=
  ⟨by norm_num,
   invert_matrix_spec ⟨2, 1, 1, 1, 3, 4⟩ 5 7 (by norm_num)⟩

/-- C9 counterexample: the matrix `diag(1/2, 1)` has nonzero
determinant `1/2`, yet `invert_matrix` truncates it to the integer `0`
and returns -1 (`none`); and `diag(2, 1)` is invertible with
determinant 2, yet the integer division `1 / 2 = 0` makes
`invert_matrix` return the all-zero matrix, which sends the image of
`(1, 0)` to `(0, 0)` instead of back to `(1, 0)`. -/
theorem invert_matrix_counterexample :
    (invert_matrix ⟨1/2, 0, 0, 1, 0, 0⟩ = none ∧
     (1/2 : ℚ) * 1 - 0 * 0 ≠ 0) ∧
    (invert_matrix ⟨2, 0, 0, 1, 0, 0⟩ = some ⟨0, 0, 0, 0, 0, 0⟩ ∧
     (2 : ℚ) * 1 - 0 * 0 ≠ 0 ∧
     apply_matrix ⟨0, 0, 0, 0, 0, 0⟩
       (apply_matrix ⟨2, 0, 0, 1, 0, 0⟩ 1 0).1
       (apply_matrix ⟨2, 0, 0, 1, 0, 0⟩ 1 0).2 = (0, 0) ∧
     ((0 : ℚ), (0 : ℚ)) ≠ ((1 : ℚ), (0 : ℚ))) := by
  have h1 : Int.tdiv 1 2 = 0 := by decide
  have h2 : Int.tdiv 2 1 = 2 := by decide
  refine ⟨⟨?_, by norm_num⟩, ?_, by norm_num, ?_, by simp [Prod.ext_iff]⟩
  · norm_num [invert_matrix, cTrunc, h1]
  · norm_num [invert_matrix, cTrunc, h1, h2]
  · norm_num [apply_matrix]

end FltkEm
